/-
Verification of the dgw code generator (dgw.go): catalog-to-struct
pipeline, type-mapping resolution, and template rendering.

The Go source is shallowly embedded: the type-map configuration
(a Go `map[string]TypeMap`) is represented as an association list whose
list order models the map's iteration order, which Go leaves
implementation-defined; external collaborators (database rows, TOML
decoding, the template engine, `go/format`, `varfmt.PublicVarName`) are
parameters. Go's `sort.Strings` / `sort.SearchStrings` compare strings
byte-wise; `goLe` below is that comparison.
-/
import Mathlib

set_option maxHeartbeats 1000000

/-- Byte-wise (lexicographic on code points) comparison of character
lists, modelling Go's built-in string ordering used by `sort.Strings`. -/
def strLe : List Char → List Char → Bool
  | [], _ => true
  | _ :: _, [] => false
  | a :: as, b :: bs =>
    if a.toNat < b.toNat then true
    else if b.toNat < a.toNat then false
    else strLe as bs

/-- Go's `<=` on strings: byte-wise lexicographic order. -/
def goLe (a b : String) : Bool := strLe a.data b.data

theorem strLe_refl (x : List Char) : strLe x x = true := by
  induction x with
  | nil => rfl
  | cons a as ih => simp [strLe, ih]

theorem strLe_total (x y : List Char) : strLe x y = true ∨ strLe y x = true := by
  induction x generalizing y with
  | nil => left; rfl
  | cons a as ih =>
    cases y with
    | nil => right; rfl
    | cons b bs =>
      rcases Nat.lt_trichotomy a.toNat b.toNat with h | h | h
      · left; simp [strLe, h]
      · have h1 : ¬ a.toNat < b.toNat := by omega
        have h2 : ¬ b.toNat < a.toNat := by omega
        rcases ih bs with hc | hc
        · left; simp [strLe, h1, h2, hc]
        · right; simp [strLe, h1, h2, hc]
      · right; simp [strLe, h]

theorem strLe_trans {x y z : List Char} (hxy : strLe x y = true)
    (hyz : strLe y z = true) : strLe x z = true := by
  induction x generalizing y z with
  | nil => rfl
  | cons a as ih =>
    cases y with
    | nil => simp [strLe] at hxy
    | cons b bs =>
      cases z with
      | nil => simp [strLe] at hyz
      | cons c cs =>
        simp only [strLe] at hxy hyz ⊢
        by_cases hab : a.toNat < b.toNat
        · by_cases hbc : b.toNat < c.toNat
          · have : a.toNat < c.toNat := by omega
            simp [this]
          · by_cases hcb : c.toNat < b.toNat
            · simp [hbc, hcb] at hyz
            · have hbceq : b.toNat = c.toNat := by omega
              have : a.toNat < c.toNat := by omega
              simp [this]
        · by_cases hba : b.toNat < a.toNat
          · simp [hab, hba] at hxy
          · have habeq : a.toNat = b.toNat := by omega
            by_cases hbc : b.toNat < c.toNat
            · have : a.toNat < c.toNat := by omega
              simp [this]
            · by_cases hcb : c.toNat < b.toNat
              · simp [hbc, hcb] at hyz
              · have hbceq : b.toNat = c.toNat := by omega
                have h1 : ¬ a.toNat < c.toNat := by omega
                have h2 : ¬ c.toNat < a.toNat := by omega
                rw [if_neg hab, if_neg hba] at hxy
                rw [if_neg hbc, if_neg hcb] at hyz
                rw [if_neg h1, if_neg h2]
                exact ih hxy hyz

theorem char_eq_of_toNat_eq {a b : Char} (h : a.toNat = b.toNat) : a = b := by
  apply Char.ext
  unfold Char.toNat at h
  exact UInt32.toNat.inj h

theorem strLe_antisymm {x y : List Char} (hxy : strLe x y = true)
    (hyx : strLe y x = true) : x = y := by
  induction x generalizing y with
  | nil =>
    cases y with
    | nil => rfl
    | cons b bs => simp [strLe] at hyx
  | cons a as ih =>
    cases y with
    | nil => simp [strLe] at hxy
    | cons b bs =>
      simp only [strLe] at hxy hyx
      by_cases hab : a.toNat < b.toNat
      · have h2 : ¬ b.toNat < a.toNat := by omega
        simp [hab, h2] at hyx
      · by_cases hba : b.toNat < a.toNat
        · simp [hab, hba] at hxy
        · have habeq : a.toNat = b.toNat := by omega
          simp only [if_neg hab, if_neg hba] at hxy hyx
          have := ih hxy hyx
          rw [char_eq_of_toNat_eq habeq, this]

theorem goLe_refl (a : String) : goLe a a = true := strLe_refl a.data

theorem goLe_total (a b : String) : goLe a b = true ∨ goLe b a = true :=
  strLe_total a.data b.data

theorem goLe_trans {a b c : String} (h1 : goLe a b = true)
    (h2 : goLe b c = true) : goLe a c = true := strLe_trans h1 h2

theorem goLe_antisymm {a b : String} (h1 : goLe a b = true)
    (h2 : goLe b a = true) : a = b :=
  String.ext (strLe_antisymm h1 h2)

instance : IsTotal String (fun a b => goLe a b = true) := ⟨goLe_total⟩

instance : IsTrans String (fun a b => goLe a b = true) :=
  ⟨fun _ _ _ => goLe_trans⟩

instance : IsRefl String (fun a b => goLe a b = true) := ⟨goLe_refl⟩

/-- Go slice sorting: `sort.Strings` sorts ascending in Go's byte-wise
string order. Modelled by insertion sort over `goLe`. -/
def sortStrings (l : List String) : List String :=
  List.insertionSort (fun a b => goLe a b = true) l

/-- Go's `sort.SearchStrings(l, v)`: the smallest index `i` with
`l[i] >= v` (which is `len(l)` when there is none). -/
def searchStrings (l : List String) (v : String) : Nat :=
  l.findIdx (fun x => goLe v x)

/-- The `contains` helper of dgw.go together with its side effect on the
slice: it sorts `l` in place with `sort.Strings`, binary-searches with
`sort.SearchStrings`, and reports whether the element at the returned
index exists and equals `v`. The first component is the returned Bool,
the second is the slice's contents after the call. -/
def containsM (v : String) (l : List String) : Bool × List String :=
  let ls := sortStrings l
  let i := searchStrings ls v
  if h : i < ls.length then ((ls.get ⟨i, h⟩) == v, ls) else (false, ls)

/-- The Boolean result of dgw.go's `contains`. -/
def contains (v : String) (l : List String) : Bool := (containsM v l).1

/-- TypeMap of dgw.go: one type-mapping rule from the TOML config. -/
structure TypeMap where
  DBTypes : List String
  NotNullGoType : String
  NotNullNilValue : String
  NullableGoType : String
  NullableNilValue : String
deriving DecidableEq

/-- PgTypeMapConfig of dgw.go is `map[string]TypeMap`; it is embedded as
an association list whose list order is the map's iteration order (Go
leaves that order implementation-defined, so distinct runs may present
the same map in different list orders). -/
abbrev PgTypeMapConfig := List (String × TypeMap)

/-- Model of Go's `sql.NullString` (only carried along, never used by
the functions under verification). -/
structure NullString where
  Str : String
  Valid : Bool
deriving DecidableEq

/-- PgColumn of dgw.go. -/
structure PgColumn where
  FieldOrdinal : Int
  Name : String
  DataType : String
  NotNull : Bool
  DefaultValue : NullString
  IsPrimaryKey : Bool
deriving DecidableEq

/-- PgTable of dgw.go. -/
structure PgTable where
  Schema : String
  Name : String
  DataType : String
  Columns : List PgColumn
deriving DecidableEq

/-- StructField of dgw.go (its `Type` field is spelled `Typ` here, since
`Type` is a Lean keyword). -/
structure StructField where
  Name : String
  Typ : String
  Tag : String
  NilVal : String
  Col : PgColumn
deriving DecidableEq

/-- Struct of dgw.go. -/
structure Struct where
  Name : String
  TableName : String
  Schema : String
  Comment : String
  Fields : List StructField
deriving DecidableEq

/-- The zero value of Go's TypeMap struct: what `cfg["default"]` yields
when the map has no "default" entry. -/
def zeroTypeMap : TypeMap :=
  { DBTypes := [], NotNullGoType := "", NotNullNilValue := ""
  , NullableGoType := "", NullableNilValue := "" }

/-- Go map indexing `cfg[k]`: the entry with key `k` (first in list
order; a Go map has unique keys), or the zero value when absent. -/
def lookupTM : PgTypeMapConfig → String → TypeMap
  | [], _ => zeroTypeMap
  | (n, v) :: rest, k => if n = k then v else lookupTM rest k

/-- The scan in PgConvertType's `for _, v := range cfg` loop: the first
rule (in iteration order) whose DBTypes contains the data type. -/
def findMatch (dt : String) : PgTypeMapConfig → Option TypeMap
  | [] => none
  | (_, v) :: rest => if contains dt v.DBTypes then some v else findMatch dt rest

/-- PgConvertType of dgw.go (value semantics; the in-place sorting done
by `contains` is tracked separately by `PgConvertTypeM`). -/
def PgConvertType (col : PgColumn) (cfg : PgTypeMapConfig) : String × String :=
  let typ := (lookupTM cfg "default").NotNullGoType
  let nilVal := (lookupTM cfg "default").NotNullNilValue
  match findMatch col.DataType cfg with
  | some v =>
    if col.NotNull then (v.NotNullGoType, v.NotNullNilValue)
    else (v.NullableGoType, v.NullableNilValue)
  | none => (typ, nilVal)

/-- One step of PgConvertType's loop, with the mutation of each
inspected rule's DBTypes slice (sorted in place by `contains`) made
explicit; returns the converted pair and the configuration contents
after the call. Rules after the first match are never inspected. -/
def convertLoop (col : PgColumn) (d : TypeMap) :
    PgTypeMapConfig → (String × String) × PgTypeMapConfig
  | [] => ((d.NotNullGoType, d.NotNullNilValue), [])
  | (n, v) :: rest =>
    let cres := containsM col.DataType v.DBTypes
    let v' : TypeMap := { v with DBTypes := cres.2 }
    if cres.1 then
      ((if col.NotNull then (v.NotNullGoType, v.NotNullNilValue)
        else (v.NullableGoType, v.NullableNilValue)), (n, v') :: rest)
    else
      let r := convertLoop col d rest
      (r.1, (n, v') :: r.2)

/-- PgConvertType of dgw.go with the in-place mutation of the shared
configuration's DBTypes slices tracked in the second component. -/
def PgConvertTypeM (col : PgColumn) (cfg : PgTypeMapConfig) :
    (String × String) × PgTypeMapConfig :=
  convertLoop col (lookupTM cfg "default") cfg

/-- The StructField PgColToField builds for a column: name from the
identifier-derivation collaborator `pvn` (varfmt.PublicVarName), type
and sentinel from PgConvertType, empty tag, back-reference to the
column. -/
def fieldOf (pvn : String → String) (cfg : PgTypeMapConfig)
    (col : PgColumn) : StructField :=
  { Name := pvn col.Name, Typ := (PgConvertType col cfg).1, Tag := ""
  , NilVal := (PgConvertType col cfg).2, Col := col }

/-- PgColToField of dgw.go; `pvn` is the external varfmt.PublicVarName
collaborator. The Go function returns `(stf, nil)` unconditionally. -/
def PgColToField (pvn : String → String) (col : PgColumn)
    (cfg : PgTypeMapConfig) : Except String StructField :=
  Except.ok (fieldOf pvn cfg col)

/-- The field-building loop of PgTableToStruct: convert each column in
order, aborting on the first error. -/
def buildFields (pvn : String → String) (cfg : PgTypeMapConfig) :
    List PgColumn → Except String (List StructField)
  | [] => Except.ok []
  | c :: cs =>
    match PgColToField pvn c cfg with
    | Except.error e => Except.error ("faield to convert col to field: " ++ e)
    | Except.ok f =>
      match buildFields pvn cfg cs with
      | Except.error e => Except.error e
      | Except.ok fs => Except.ok (f :: fs)

/-- PgTableToStruct of dgw.go. -/
def PgTableToStruct (pvn : String → String) (t : PgTable)
    (cfg : PgTypeMapConfig) : Except String Struct :=
  match buildFields pvn cfg t.Columns with
  | Except.error e => Except.error e
  | Except.ok fs =>
    Except.ok { Name := pvn t.Name, TableName := t.Name, Schema := t.Schema
              , Comment := "", Fields := fs }

/-- The Struct value PgTableToStruct always produces. -/
def structOf (pvn : String → String) (t : PgTable)
    (cfg : PgTypeMapConfig) : Struct :=
  { Name := pvn t.Name, TableName := t.Name, Schema := t.Schema
  , Comment := "", Fields := t.Columns.map (fieldOf pvn cfg) }

/-- PgExecuteStructTmpl of dgw.go, returning Go's `([]byte, error)` pair
as (bytes, optional error). The template engine and go/format are
external collaborators: `pe` is the error of parsing the fixed struct
template (if any), `ex` executes the parsed template on a Struct, `fm`
is go/format.Source. On any failure the function returns its own zero
output together with the wrapped error. -/
def PgExecuteStructTmpl (pe : Option String)
    (ex : Struct → Except String String)
    (fm : String → Except String String) (st : Struct) : String × Option String :=
  match pe with
  | some e => ("", some ("failed to parse template: " ++ e))
  | none =>
    match ex st with
    | Except.error e => ("", some ("failed to execute template: " ++ e))
    | Except.ok buf =>
      match fm buf with
      | Except.error e => ("", some ("failed to format source code: " ++ e))
      | Except.ok src => (src, none)

/-- Concatenation of a list of byte buffers (Go's repeated
`src = append(src, s...)`). -/
def concatStrs : List String → String
  | [] => ""
  | s :: l => s ++ concatStrs l

/-- The config-loading step of PgCreateStruct: decode the built-in type
map when no path is given, else decode the file; both TOML decoders are
external collaborators, their errors are wrapped as in dgw.go. -/
def decodeConfig (typeMapPath : String)
    (decodeBuiltin : Except String PgTypeMapConfig)
    (decodeFile : String → Except String PgTypeMapConfig) :
    Except String PgTypeMapConfig :=
  if typeMapPath = "" then
    match decodeBuiltin with
    | Except.error e => Except.error ("faield to read type map: " ++ e)
    | Except.ok c => Except.ok c
  else
    match decodeFile typeMapPath with
    | Except.error e =>
      Except.error ("failed to decode type map file " ++ typeMapPath ++ ": " ++ e)
    | Except.ok c => Except.ok c

/-- The per-table loop of PgCreateStruct: build the struct, render it,
append the rendered bytes to the shared output buffer `src`; abort on
the first error, returning the buffer accumulated so far with the
wrapped error. -/
def createLoop (pvn : String → String) (pe : Option String)
    (ex : Struct → Except String String) (fm : String → Except String String)
    (cfg : PgTypeMapConfig) : List PgTable → String → String × Option String
  | [], src => (src, none)
  | tbl :: rest, src =>
    match PgTableToStruct pvn tbl cfg with
    | Except.error e =>
      (src, some ("faield to convert table definition to struct: " ++ e))
    | Except.ok st =>
      let r := PgExecuteStructTmpl pe ex fm st
      match r.2 with
      | some e => (src, some ("faield to execute template: " ++ e))
      | none => createLoop pvn pe ex fm cfg rest (src ++ r.1)

/-- PgCreateStruct of dgw.go, returning Go's `([]byte, error)` pair.
`loadTables` is the outcome of PgLoadTableDef on the given db and
schema; the TOML decoders, identifier derivation and template engine
are the external collaborators described on `decodeConfig` and
`PgExecuteStructTmpl`. -/
def PgCreateStruct (loadTables : Except String (List PgTable))
    (typeMapPath : String) (decodeBuiltin : Except String PgTypeMapConfig)
    (decodeFile : String → Except String PgTypeMapConfig)
    (pvn : String → String) (pe : Option String)
    (ex : Struct → Except String String)
    (fm : String → Except String String) : String × Option String :=
  match loadTables with
  | Except.error e => ("", some ("faield to load table definitions: " ++ e))
  | Except.ok tbls =>
    match decodeConfig typeMapPath decodeBuiltin decodeFile with
    | Except.error e => ("", some e)
    | Except.ok cfg => createLoop pvn pe ex fm cfg tbls ""

/-- The row loop of PgLoadTableDef of dgw.go: for each (relkind, name)
row of the table query, load that table's columns via the external
query collaborator `loadCols`, aborting the whole load on the first
failure with the table's name as context. -/
def pgLoadLoop (loadCols : String → Except String (List PgColumn))
    (schema : String) : List (String × String) → Except String (List PgTable)
  | [] => Except.ok []
  | (dt, name) :: rest =>
    match loadCols name with
    | Except.error e =>
      Except.error ("failed to get columns of " ++ name ++ ": " ++ e)
    | Except.ok cols =>
      match pgLoadLoop loadCols schema rest with
      | Except.error e => Except.error e
      | Except.ok ts =>
        Except.ok ({ Schema := schema, Name := name, DataType := dt
                   , Columns := cols } :: ts)

/-- PgLoadTableDef of dgw.go over the rows returned by the catalog
query (an external collaborator, already scanned into pairs). -/
def PgLoadTableDef (rows : List (String × String))
    (loadCols : String → Except String (List PgColumn))
    (schema : String) : Except String (List PgTable) :=
  pgLoadLoop loadCols schema rows

/-- Relation between a configuration entry after a PgConvertTypeM call
and the same entry before it: same rule name, all four target/sentinel
fields unchanged, and the DBTypes slice holding the same multiset of
raw type names (possibly reordered in place). -/
def ruleOnlyResorted (e' e : String × TypeMap) : Prop :=
  e'.1 = e.1 ∧ e'.2.DBTypes.Perm e.2.DBTypes ∧
  e'.2.NotNullGoType = e.2.NotNullGoType ∧
  e'.2.NotNullNilValue = e.2.NotNullNilValue ∧
  e'.2.NullableGoType = e.2.NullableGoType ∧
  e'.2.NullableNilValue = e.2.NullableNilValue

theorem sortStrings_perm (l : List String) : (sortStrings l).Perm l :=
  List.perm_insertionSort _ l

theorem sortStrings_sorted (l : List String) :
    List.Sorted (fun a b => goLe a b = true) (sortStrings l) :=
  List.sorted_insertionSort _ l

theorem containsM_snd (v : String) (l : List String) :
    (containsM v l).2 = sortStrings l := by
  unfold containsM
  dsimp only
  split <;> rfl

theorem contains_iff (v : String) (l : List String) :
    contains v l = true ↔ v ∈ l := by
  have hperm := sortStrings_perm l
  have hsort := sortStrings_sorted l
  unfold contains containsM searchStrings
  dsimp only
  constructor
  · intro h
    split at h
    case isTrue hlt =>
      have hv : (sortStrings l).get ⟨_, hlt⟩ = v := eq_of_beq h
      exact hperm.mem_iff.mp (hv ▸ List.get_mem _ _ _)
    case isFalse => simp at h
  · intro hv
    have hvs : v ∈ sortStrings l := hperm.mem_iff.mpr hv
    have hex : ∃ x ∈ sortStrings l, (fun x => goLe v x) x = true :=
      ⟨v, hvs, goLe_refl v⟩
    have hlt := List.findIdx_lt_length_of_exists hex
    rw [dif_pos hlt]
    have hp : goLe v ((sortStrings l).get ⟨_, hlt⟩) = true :=
      @List.findIdx_get _ _ _ hlt
    obtain ⟨j, hget⟩ := List.mem_iff_get.mp hvs
    have hget' : (sortStrings l)[(j : Nat)] = v := by
      simpa [List.get_eq_getElem] using hget
    have hij : (⟨List.findIdx (fun x => goLe v x) (sortStrings l), hlt⟩ : Fin _) ≤ j := by
      by_contra hcon
      push_neg at hcon
      have hfalse :=
        @List.not_of_lt_findIdx _ (fun x => goLe v x) (sortStrings l) j.val hcon
      rw [hget', goLe_refl v] at hfalse
      exact Bool.true_eq_false.mp hfalse
    have hle2 : goLe ((sortStrings l).get ⟨_, hlt⟩) ((sortStrings l).get j) = true :=
      hsort.rel_get_of_le hij
    rw [hget] at hle2
    have heq : (sortStrings l).get ⟨_, hlt⟩ = v := goLe_antisymm hle2 hp
    have heq' : (sortStrings l)[List.findIdx (fun x => goLe v x) (sortStrings l)] = v := by
      simpa [List.get_eq_getElem] using heq
    simp [heq']

theorem findMatch_eq_none_iff (dt : String) (cfg : PgTypeMapConfig) :
    findMatch dt cfg = none ↔ ∀ e ∈ cfg, dt ∉ e.2.DBTypes := by
  induction cfg with
  | nil => simp [findMatch]
  | cons e rest ih =>
    obtain ⟨n, v⟩ := e
    by_cases hc : contains dt v.DBTypes
    · have hmem : dt ∈ v.DBTypes := (contains_iff dt v.DBTypes).mp hc
      simp [findMatch, hc, hmem]
    · have hnmem : dt ∉ v.DBTypes := fun hm =>
        hc ((contains_iff dt v.DBTypes).mpr hm)
      simp [findMatch, hc, ih, hnmem]

theorem findMatch_mem {dt : String} {cfg : PgTypeMapConfig} {v : TypeMap}
    (h : findMatch dt cfg = some v) : ∃ n, (n, v) ∈ cfg ∧ dt ∈ v.DBTypes := by
  induction cfg with
  | nil => simp [findMatch] at h
  | cons e rest ih =>
    obtain ⟨n, w⟩ := e
    by_cases hc : contains dt w.DBTypes
    · rw [findMatch, if_pos hc] at h
      have hwv : w = v := Option.some.inj h
      refine ⟨n, ?_, ?_⟩
      · rw [← hwv]
        exact List.mem_cons_self _ _
      · rw [← hwv]
        exact (contains_iff dt w.DBTypes).mp hc
    · rw [findMatch, if_neg hc] at h
      obtain ⟨n', hmem, hdt⟩ := ih h
      exact ⟨n', List.mem_cons_of_mem _ hmem, hdt⟩

theorem lookupTM_perm {cfg1 cfg2 : PgTypeMapConfig} (k : String)
    (h : cfg1.Perm cfg2) (hnd : (cfg1.map Prod.fst).Nodup) :
    lookupTM cfg1 k = lookupTM cfg2 k := by
  induction h with
  | nil => rfl
  | cons x _ ih =>
    obtain ⟨n, v⟩ := x
    rw [List.map_cons, List.nodup_cons] at hnd
    unfold lookupTM
    split
    · rfl
    · exact ih hnd.2
  | swap x y l =>
    obtain ⟨a, b⟩ := x
    obtain ⟨c, d⟩ := y
    rw [List.map_cons, List.map_cons, List.nodup_cons] at hnd
    have hne : c ≠ a := by
      intro hca
      exact hnd.1 (hca ▸ List.mem_cons_self _ _)
    show lookupTM ((c, d) :: (a, b) :: l) k = lookupTM ((a, b) :: (c, d) :: l) k
    by_cases hc : c = k
    · by_cases ha : a = k
      · exact absurd (hc.trans ha.symm) hne
      · simp [lookupTM, hc, ha]
    · by_cases ha : a = k
      · simp [lookupTM, hc, ha]
      · simp [lookupTM, hc, ha]
  | trans h1 _ ih1 ih2 =>
    have hnd2 := ((h1.map Prod.fst).nodup_iff).mp hnd
    exact (ih1 hnd).trans (ih2 hnd2)

theorem buildFields_eq (pvn : String → String) (cfg : PgTypeMapConfig)
    (cols : List PgColumn) :
    buildFields pvn cfg cols = Except.ok (cols.map (fieldOf pvn cfg)) := by
  induction cols with
  | nil => rfl
  | cons c cs ih => simp [buildFields, PgColToField, ih]

theorem PgTableToStruct_eq (pvn : String → String) (t : PgTable)
    (cfg : PgTypeMapConfig) :
    PgTableToStruct pvn t cfg = Except.ok (structOf pvn t cfg) := by
  unfold PgTableToStruct structOf
  rw [buildFields_eq]

theorem lookupTM_no_default {cfg : PgTypeMapConfig}
    (h : ∀ e ∈ cfg, e.1 ≠ "default") : lookupTM cfg "default" = zeroTypeMap := by
  induction cfg with
  | nil => rfl
  | cons e rest ih =>
    obtain ⟨n, v⟩ := e
    have hn : n ≠ "default" := h (n, v) (List.mem_cons_self _ _)
    rw [lookupTM, if_neg hn]
    exact ih fun e' he' => h e' (List.mem_cons_of_mem _ he')

theorem createLoop_append_ok (pvn : String → String) (pe : Option String)
    (ex : Struct → Except String String) (fm : String → Except String String)
    (cfg : PgTypeMapConfig) (pre l : List PgTable) (src : String)
    (hpre : ∀ t ∈ pre, (PgExecuteStructTmpl pe ex fm (structOf pvn t cfg)).2 = none) :
    createLoop pvn pe ex fm cfg (pre ++ l) src =
      createLoop pvn pe ex fm cfg l
        (src ++ concatStrs (pre.map fun t => (PgExecuteStructTmpl pe ex fm (structOf pvn t cfg)).1)) := by
  induction pre generalizing src with
  | nil => simp [concatStrs]
  | cons t ts ih =>
    have hok := hpre t (List.mem_cons_self _ _)
    rw [List.cons_append, createLoop, PgTableToStruct_eq]
    dsimp only
    rw [hok]
    dsimp only
    rw [ih _ fun t' ht' => hpre t' (List.mem_cons_of_mem _ ht')]
    rw [List.map_cons, concatStrs, String.append_assoc]

theorem createLoop_bad_head (pvn : String → String) (pe : Option String)
    (ex : Struct → Except String String) (fm : String → Except String String)
    (cfg : PgTypeMapConfig) (bad : PgTable) (rest : List PgTable) (src : String)
    (e : String)
    (hbad : (PgExecuteStructTmpl pe ex fm (structOf pvn bad cfg)).2 = some e) :
    createLoop pvn pe ex fm cfg (bad :: rest) src =
      (src, some ("faield to execute template: " ++ e)) := by
  rw [createLoop, PgTableToStruct_eq]
  dsimp only
  rw [hbad]

theorem convertLoop_snd (col : PgColumn) (d : TypeMap) (cfg : PgTypeMapConfig) :
    List.Forall₂ ruleOnlyResorted (convertLoop col d cfg).2 cfg := by
  induction cfg with
  | nil => exact List.Forall₂.nil
  | cons e rest ih =>
    obtain ⟨n, v⟩ := e
    have hperm : (containsM col.DataType v.DBTypes).2.Perm v.DBTypes := by
      rw [containsM_snd]
      exact sortStrings_perm v.DBTypes
    have hhead : ruleOnlyResorted
        (n, { v with DBTypes := (containsM col.DataType v.DBTypes).2 }) (n, v) :=
      ⟨rfl, hperm, rfl, rfl, rfl, rfl⟩
    have hrefl : List.Forall₂ ruleOnlyResorted rest rest := by
      rw [List.forall₂_same]
      intro x _
      exact ⟨rfl, List.Perm.refl _, rfl, rfl, rfl, rfl⟩
    rw [convertLoop]
    dsimp only
    split
    · exact List.Forall₂.cons hhead hrefl
    · exact List.Forall₂.cons hhead ih

theorem convertLoop_fst (col : PgColumn) (d : TypeMap) (cfg : PgTypeMapConfig) :
    (convertLoop col d cfg).1 =
      match findMatch col.DataType cfg with
      | some v =>
        if col.NotNull then (v.NotNullGoType, v.NotNullNilValue)
        else (v.NullableGoType, v.NullableNilValue)
      | none => (d.NotNullGoType, d.NotNullNilValue) := by
  induction cfg with
  | nil => rfl
  | cons e rest ih =>
    obtain ⟨n, v⟩ := e
    rw [convertLoop, findMatch]
    dsimp only
    by_cases hc : contains col.DataType v.DBTypes
    · have hc' : (containsM col.DataType v.DBTypes).1 = true := hc
      rw [if_pos hc', if_pos hc]
    · have hc' : ¬ (containsM col.DataType v.DBTypes).1 = true := hc
      rw [if_neg hc', if_neg hc]
      exact ih

theorem findMatch_append_first (dt : String) (pre rest : PgTypeMapConfig)
    (n : String) (v : TypeMap)
    (hpre : ∀ e ∈ pre, dt ∉ e.2.DBTypes) (hv : dt ∈ v.DBTypes) :
    findMatch dt (pre ++ (n, v) :: rest) = some v := by
  induction pre with
  | nil =>
    rw [List.nil_append, findMatch, if_pos ((contains_iff dt v.DBTypes).mpr hv)]
  | cons e pre' ih =>
    obtain ⟨n', w⟩ := e
    have hnw : dt ∉ w.DBTypes := hpre (n', w) (List.mem_cons_self _ _)
    have hc : ¬ contains dt w.DBTypes = true := fun hcc =>
      hnw ((contains_iff dt w.DBTypes).mp hcc)
    rw [List.cons_append, findMatch, if_neg hc]
    exact ih fun e' he' => hpre e' (List.mem_cons_of_mem _ he')

theorem pgLoadLoop_append_err (loadCols : String → Except String (List PgColumn))
    (schema : String) (rowsPre : List (String × String)) (dtB nameB : String)
    (rowsRest : List (String × String)) (eC : String)
    (hLpre : ∀ r ∈ rowsPre, (loadCols r.2).isOk = true)
    (hLbad : loadCols nameB = Except.error eC) :
    pgLoadLoop loadCols schema (rowsPre ++ (dtB, nameB) :: rowsRest) =
      Except.error ("failed to get columns of " ++ nameB ++ ": " ++ eC) := by
  induction rowsPre with
  | nil =>
    rw [List.nil_append, pgLoadLoop, hLbad]
  | cons r rowsPre' ih =>
    obtain ⟨dt, name⟩ := r
    have hok := hLpre (dt, name) (List.mem_cons_self _ _)
    rw [List.cons_append, pgLoadLoop]
    cases hlc : loadCols name with
    | error e => rw [hlc] at hok; simp [Except.isOk, Except.toBool] at hok
    | ok cols =>
      dsimp only
      rw [ih fun r' hr' => hLpre r' (List.mem_cons_of_mem _ hr')]

theorem PgExecuteStructTmpl_err_src (pe : Option String)
    (ex : Struct → Except String String) (fm : String → Except String String)
    (st : Struct) (h : (PgExecuteStructTmpl pe ex fm st).2.isSome = true) :
    (PgExecuteStructTmpl pe ex fm st).1 = "" := by
  unfold PgExecuteStructTmpl at h ⊢
  cases pe with
  | some e => rfl
  | none =>
    cases hex : ex st with
    | error e => simp [hex]
    | ok buf =>
      cases hfm : fm buf with
      | error e => simp [hex, hfm]
      | ok src => simp [hex, hfm] at h

/-- Example type-mapping rule for integer types (concrete test data). -/
def tmIntW : TypeMap :=
  { DBTypes := ["integer", "bigint"], NotNullGoType := "int64"
  , NotNullNilValue := "0", NullableGoType := "NullInt64"
  , NullableNilValue := "nil" }

/-- Example type-mapping rule for text (concrete test data). -/
def tmTextW : TypeMap :=
  { DBTypes := ["text"], NotNullGoType := "string", NotNullNilValue := "es"
  , NullableGoType := "NullString", NullableNilValue := "nil" }

/-- Example fallback rule named "default" (concrete test data). -/
def tmDefW : TypeMap :=
  { DBTypes := [], NotNullGoType := "interface", NotNullNilValue := "nil"
  , NullableGoType := "interfaceN", NullableNilValue := "nilN" }

/-- Empty sql.NullString value (concrete test data). -/
def nsEmpty : NullString := { Str := "", Valid := false }

/-- A not-null text column (concrete test data). -/
def colTextW : PgColumn :=
  { FieldOrdinal := 2, Name := "email", DataType := "text", NotNull := true
  , DefaultValue := nsEmpty, IsPrimaryKey := false }

/-- A nullable text column (concrete test data). -/
def colNullTextW : PgColumn :=
  { FieldOrdinal := 3, Name := "nickname", DataType := "text", NotNull := false
  , DefaultValue := nsEmpty, IsPrimaryKey := false }

/-- A nullable uuid column (concrete test data). -/
def colUuidW : PgColumn :=
  { FieldOrdinal := 1, Name := "uuid", DataType := "uuid", NotNull := false
  , DefaultValue := nsEmpty, IsPrimaryKey := true }

/-- Rule mapping raw type "foo" to target "A" (concrete test data for the
overlapping-rules counterexample). -/
def tmA : TypeMap :=
  { DBTypes := ["foo"], NotNullGoType := "A", NotNullNilValue := "a0"
  , NullableGoType := "AN", NullableNilValue := "an0" }

/-- Rule mapping raw type "foo" to target "B" (concrete test data for the
overlapping-rules counterexample). -/
def tmB : TypeMap :=
  { DBTypes := ["foo"], NotNullGoType := "B", NotNullNilValue := "b0"
  , NullableGoType := "BN", NullableNilValue := "bn0" }

/-- A not-null column of raw type "foo" (concrete test data). -/
def colFoo : PgColumn :=
  { FieldOrdinal := 1, Name := "c", DataType := "foo", NotNull := true
  , DefaultValue := nsEmpty, IsPrimaryKey := false }

/-- One iteration order of a map holding the two overlapping rules. -/
def cfgRun1 : PgTypeMapConfig := [("ra", tmA), ("rb", tmB)]

/-- The other iteration order of the same map. -/
def cfgRun2 : PgTypeMapConfig := [("rb", tmB), ("ra", tmA)]

/-- A configuration with a default rule and a text rule, in one order. -/
def cfgDet1 : PgTypeMapConfig := [("default", tmDefW), ("text", tmTextW)]

/-- The same configuration in the other iteration order. -/
def cfgDet2 : PgTypeMapConfig := [("text", tmTextW), ("default", tmDefW)]

/-- Identifier derivation that yields the empty identifier for every
column name (concrete test data for the PgColToField claim). -/
def pvnEmptyW : String → String := fun _ => ""

/-- A column whose name is purely symbolic (concrete test data). -/
def colSymW : PgColumn :=
  { FieldOrdinal := 1, Name := "+++", DataType := "text", NotNull := true
  , DefaultValue := nsEmpty, IsPrimaryKey := false }

/-- Identity identifier derivation (concrete test data). -/
def pvnIdW : String → String := fun s => s

/-- Concrete tables with no columns (test data for pipeline claims). -/
def tblOneW : PgTable :=
  { Schema := "public", Name := "t1", DataType := "r", Columns := [] }

/-- A table whose rendering is made to fail (test data). -/
def tblBadW : PgTable :=
  { Schema := "public", Name := "bad", DataType := "r", Columns := [] }

/-- Another concrete table (test data). -/
def tblTwoW : PgTable :=
  { Schema := "public", Name := "t2", DataType := "r", Columns := [] }

/-- A template-execution collaborator that fails on the table named
"bad" and yields "R" ++ name otherwise (test data). -/
def exW : Struct → Except String String := fun st =>
  if st.TableName = "bad" then Except.error "boom"
  else Except.ok ("R" ++ st.TableName)

/-- A formatting collaborator that accepts everything (test data). -/
def fmOkW : String → Except String String := fun s => Except.ok s

/-- A column-query collaborator that fails for the table named "cbad"
(test data). -/
def loadColsW : String → Except String (List PgColumn) := fun n =>
  if n = "cbad" then Except.error "qfail" else Except.ok []

/-- A single-rule configuration used as decoded config (test data). -/
def cfgW : PgTypeMapConfig := [("default", tmDefW)]

/-- A file decoder collaborator that always succeeds (test data). -/
def dfW : String → Except String PgTypeMapConfig := fun _ => Except.ok []

/-- C1: PgConvertType scans the configured rules in iteration order for
one whose DBTypes set contains the column's raw type name (exact string
match); on the first such match it returns that rule's not-null
(type, sentinel) pair when the column is not-null and the nullable pair
otherwise. -/
theorem PgConvertType_first_match (col : PgColumn) (pre rest : PgTypeMapConfig)
    (n : String) (v : TypeMap)
    (hpre : ∀ e ∈ pre, col.DataType ∉ e.2.DBTypes)
    (hv : col.DataType ∈ v.DBTypes) :
    PgConvertType col (pre ++ (n, v) :: rest) =
      if col.NotNull then (v.NotNullGoType, v.NotNullNilValue)
      else (v.NullableGoType, v.NullableNilValue) := by
  unfold PgConvertType
  rw [findMatch_append_first col.DataType pre rest n v hpre hv]

/-- Witness for C1 at a concrete column and configuration: the text
column skips the non-matching integer rule and takes the text rule's
not-null pair. -/
theorem PgConvertType_first_match_witness :
    colTextW.DataType ∉ tmIntW.DBTypes ∧ colTextW.DataType ∈ tmTextW.DBTypes ∧
    PgConvertType colTextW ([("int", tmIntW)] ++ ("text", tmTextW) :: []) =
      ("string", "es") :=
  ⟨by decide, by decide,
    PgConvertType_first_match colTextW [("int", tmIntW)] [] "text" tmTextW
      (by decide) (by decide)⟩

/-- C2: when no configured rule's DBTypes set contains the column's raw
type name, PgConvertType returns the "default" entry's not-null
(type, sentinel) pair, whether or not the column is nullable. -/
theorem PgConvertType_unmatched_fallback (col : PgColumn) (cfg : PgTypeMapConfig)
    (hnone : ∀ e ∈ cfg, col.DataType ∉ e.2.DBTypes) :
    PgConvertType col cfg =
      ((lookupTM cfg "default").NotNullGoType,
       (lookupTM cfg "default").NotNullNilValue) := by
  unfold PgConvertType
  rw [(findMatch_eq_none_iff col.DataType cfg).mpr hnone]

/-- Witness for C2 at a concrete nullable unmatched column: the
fallback still returns the default rule's NOT-NULL pair even though the
column is nullable. -/
theorem PgConvertType_unmatched_fallback_witness :
    colNullTextW.NotNull = false ∧
    PgConvertType colNullTextW [("default", tmDefW), ("int", tmIntW)] =
      ("interface", "nil") :=
  ⟨rfl,
    PgConvertType_unmatched_fallback colNullTextW [("default", tmDefW), ("int", tmIntW)]
      (by decide)⟩

/-- C3: the struct PgTableToStruct builds has exactly one field per
column, in the table's column order, for every configuration and every
identifier-derivation function. -/
theorem PgTableToStruct_fields_order (pvn : String → String) (t : PgTable)
    (cfg : PgTypeMapConfig) :
    ∃ s, PgTableToStruct pvn t cfg = Except.ok s ∧
      s.Fields.map StructField.Col = t.Columns := by
  refine ⟨structOf pvn t cfg, PgTableToStruct_eq pvn t cfg, ?_⟩
  show (t.Columns.map (fieldOf pvn cfg)).map StructField.Col = t.Columns
  rw [List.map_map]
  exact List.map_id t.Columns

/-- C8 counterexample: even when identifier derivation yields the empty
identifier for a purely symbolic column name, PgColToField does not
fail — it returns ok with the empty field name. -/
theorem PgColToField_ok_on_empty_identifier :
    pvnEmptyW colSymW.Name = "" ∧
    PgColToField pvnEmptyW colSymW [] =
      Except.ok { Name := "", Typ := "", Tag := "", NilVal := "", Col := colSymW } :=
  ⟨rfl, rfl⟩

/-- C8 amended: PgColToField never fails; for every column,
configuration and identifier-derivation function it returns ok with
the derived name (however degenerate), the resolved type and sentinel,
and the source column. -/
theorem PgColToField_never_fails (pvn : String → String) (col : PgColumn)
    (cfg : PgTypeMapConfig) :
    PgColToField pvn col cfg =
      Except.ok { Name := pvn col.Name, Typ := (PgConvertType col cfg).1
                , Tag := "", NilVal := (PgConvertType col cfg).2, Col := col } := rfl

/-- C9: `contains` sorts its list argument in place (the slice after
the call is a sorted permutation of its previous contents) yet still
answers membership exactly; consequently PgConvertTypeM leaves every
rule with its name and target fields intact and its DBTypes slice a
permutation of the original, and returns the same pair as the
value-level PgConvertType. -/
theorem contains_sorts_in_place (v : String) (l : List String)
    (col : PgColumn) (cfg : PgTypeMapConfig) :
    ((containsM v l).2.Perm l
      ∧ List.Sorted (fun a b => goLe a b = true) (containsM v l).2
      ∧ (contains v l = true ↔ v ∈ l))
    ∧ List.Forall₂ ruleOnlyResorted (PgConvertTypeM col cfg).2 cfg
    ∧ (PgConvertTypeM col cfg).1 = PgConvertType col cfg := by
  refine ⟨⟨?_, ?_, contains_iff v l⟩, convertLoop_snd col _ cfg, ?_⟩
  · rw [containsM_snd]
    exact sortStrings_perm l
  · rw [containsM_snd]
    exact sortStrings_sorted l
  · show (convertLoop col (lookupTM cfg "default") cfg).1 = PgConvertType col cfg
    rw [convertLoop_fst]
    rfl

/-- C10: with no "default" entry in the configuration and no matching
rule, PgConvertType still succeeds and returns the empty string for
both the target type and the sentinel (the zero TypeMap's fields). -/
theorem PgConvertType_no_default_entry (col : PgColumn) (cfg : PgTypeMapConfig)
    (hnodef : ∀ e ∈ cfg, e.1 ≠ "default")
    (hnone : ∀ e ∈ cfg, col.DataType ∉ e.2.DBTypes) :
    PgConvertType col cfg = ("", "") := by
  unfold PgConvertType
  rw [(findMatch_eq_none_iff col.DataType cfg).mpr hnone, lookupTM_no_default hnodef]
  rfl

/-- Witness for C10: a uuid column against a single text rule and no
default entry resolves to a pair of empty strings. -/
theorem PgConvertType_no_default_entry_witness :
    PgConvertType colUuidW [("text", tmTextW)] = ("", "") :=
  PgConvertType_no_default_entry colUuidW [("text", tmTextW)] (by decide) (by decide)

/-- C4 counterexample: two iteration orders of one and the same mapping
(same entries, unique keys — exactly what two runs over one Go map may
present) give different (type, sentinel) pairs for the same column when
two rules' DBTypes sets both contain its raw type, so resolution is not
deterministic across runs of the same configuration. -/
theorem PgConvertType_two_runs_differ :
    cfgRun1.Perm cfgRun2 ∧ (cfgRun1.map Prod.fst).Nodup ∧
    PgConvertType colFoo cfgRun1 ≠ PgConvertType colFoo cfgRun2 := by
  refine ⟨?_, ?_, ?_⟩
  · decide
  · decide
  · decide

/-- C4 amended: when at most one rule's DBTypes set contains the
column's raw type (all matching entries carry the same TypeMap value),
PgConvertType returns the same pair for every iteration order of the
same mapping configuration. -/
theorem PgConvertType_deterministic_of_unique_match (col : PgColumn)
    (cfg1 cfg2 : PgTypeMapConfig) (hperm : cfg1.Perm cfg2)
    (hnd : (cfg1.map Prod.fst).Nodup)
    (huniq : ∀ e1 ∈ cfg1, ∀ e2 ∈ cfg1, col.DataType ∈ e1.2.DBTypes →
      col.DataType ∈ e2.2.DBTypes → e1.2 = e2.2) :
    PgConvertType col cfg1 = PgConvertType col cfg2 := by
  have hlk := lookupTM_perm "default" hperm hnd
  unfold PgConvertType
  rw [hlk]
  cases h1 : findMatch col.DataType cfg1 with
  | none =>
    cases h2 : findMatch col.DataType cfg2 with
    | none => rfl
    | some v2 =>
      exfalso
      obtain ⟨n2, hm2, hd2⟩ := findMatch_mem h2
      have hall := (findMatch_eq_none_iff col.DataType cfg1).mp h1
      exact hall (n2, v2) (hperm.mem_iff.mpr hm2) hd2
  | some v1 =>
    cases h2 : findMatch col.DataType cfg2 with
    | none =>
      exfalso
      obtain ⟨n1, hm1, hd1⟩ := findMatch_mem h1
      have hall := (findMatch_eq_none_iff col.DataType cfg2).mp h2
      exact hall (n1, v1) (hperm.mem_iff.mp hm1) hd1
    | some v2 =>
      obtain ⟨n1, hm1, hd1⟩ := findMatch_mem h1
      obtain ⟨n2, hm2, hd2⟩ := findMatch_mem h2
      have hv : v1 = v2 :=
        huniq (n1, v1) hm1 (n2, v2) (hperm.mem_iff.mpr hm2) hd1 hd2
      rw [hv]

/-- Witness for the amended C4 at a concrete configuration whose rules
do not overlap: both iteration orders resolve the text column alike. -/
theorem PgConvertType_deterministic_witness :
    cfgDet1.Perm cfgDet2 ∧
    PgConvertType colTextW cfgDet1 = PgConvertType colTextW cfgDet2 :=
  ⟨by decide,
    PgConvertType_deterministic_of_unique_match colTextW cfgDet1 cfgDet2
      (by decide) (by decide) (by decide)⟩

/-- C5: the run aborts on the first error of any stage. A table-load
error makes PgCreateStruct return only that wrapped error; inside
PgLoadTableDef the first failing per-table column query aborts the
whole load with the table's name as context; and when rendering a table
fails, the whole run fails and its outcome does not depend on the
tables after the failing one — no per-table-skip recovery. -/
theorem PgCreateStruct_aborts_first_error (eL eC : String) (tmp : String)
    (db : Except String PgTypeMapConfig)
    (df : String → Except String PgTypeMapConfig) (pvn : String → String)
    (pe : Option String) (ex : Struct → Except String String)
    (fm : String → Except String String) (cfg : PgTypeMapConfig)
    (pre : List PgTable) (bad : PgTable) (rest rest' : List PgTable)
    (rowsPre : List (String × String)) (dtB nameB : String)
    (rowsRest : List (String × String))
    (loadCols : String → Except String (List PgColumn)) (schema : String)
    (hdec : decodeConfig tmp db df = Except.ok cfg)
    (hpre : ∀ t ∈ pre, (PgExecuteStructTmpl pe ex fm (structOf pvn t cfg)).2 = none)
    (hbad : (PgExecuteStructTmpl pe ex fm (structOf pvn bad cfg)).2.isSome = true)
    (hLpre : ∀ r ∈ rowsPre, (loadCols r.2).isOk = true)
    (hLbad : loadCols nameB = Except.error eC) :
    PgCreateStruct (Except.error eL) tmp db df pvn pe ex fm =
        ("", some ("faield to load table definitions: " ++ eL))
    ∧ PgLoadTableDef (rowsPre ++ (dtB, nameB) :: rowsRest) loadCols schema =
        Except.error ("failed to get columns of " ++ nameB ++ ": " ++ eC)
    ∧ (PgCreateStruct (Except.ok (pre ++ bad :: rest)) tmp db df pvn pe ex fm).2.isSome
        = true
    ∧ PgCreateStruct (Except.ok (pre ++ bad :: rest)) tmp db df pvn pe ex fm =
        PgCreateStruct (Except.ok (pre ++ bad :: rest')) tmp db df pvn pe ex fm := by
  obtain ⟨e, he⟩ := Option.isSome_iff_exists.mp hbad
  have hrun : ∀ tail : List PgTable,
      PgCreateStruct (Except.ok (pre ++ bad :: tail)) tmp db df pvn pe ex fm =
        (concatStrs (pre.map fun t => (PgExecuteStructTmpl pe ex fm (structOf pvn t cfg)).1),
         some ("faield to execute template: " ++ e)) := by
    intro tail
    unfold PgCreateStruct
    rw [hdec]
    dsimp only
    rw [createLoop_append_ok pvn pe ex fm cfg pre (bad :: tail) "" hpre]
    rw [createLoop_bad_head pvn pe ex fm cfg bad tail _ e he]
    simp
  refine ⟨rfl, ?_, ?_, ?_⟩
  · exact pgLoadLoop_append_err loadCols schema rowsPre dtB nameB rowsRest eC hLpre hLbad
  · rw [hrun rest]
    rfl
  · rw [hrun rest, hrun rest']

/-- Witness for C5: a failing load aborts the run, a failing column
query aborts the table load naming the table, and a failing render of
the second of three tables fails the run identically whether or not a
third table follows. -/
theorem PgCreateStruct_aborts_first_error_witness :
    PgCreateStruct (Except.error "connfail") "" (Except.ok cfgW) dfW pvnIdW none exW fmOkW =
        ("", some ("faield to load table definitions: " ++ "connfail"))
    ∧ PgLoadTableDef ([("r", "t1")] ++ ("r", "cbad") :: [("r", "t2")]) loadColsW "public" =
        Except.error ("failed to get columns of " ++ "cbad" ++ ": " ++ "qfail")
    ∧ (PgCreateStruct (Except.ok ([tblOneW] ++ tblBadW :: [tblTwoW])) ""
        (Except.ok cfgW) dfW pvnIdW none exW fmOkW).2.isSome = true
    ∧ PgCreateStruct (Except.ok ([tblOneW] ++ tblBadW :: [tblTwoW])) ""
        (Except.ok cfgW) dfW pvnIdW none exW fmOkW =
      PgCreateStruct (Except.ok ([tblOneW] ++ tblBadW :: [])) ""
        (Except.ok cfgW) dfW pvnIdW none exW fmOkW :=
  PgCreateStruct_aborts_first_error "connfail" "qfail" "" (Except.ok cfgW) dfW
    pvnIdW none exW fmOkW cfgW [tblOneW] tblBadW [tblTwoW] []
    [("r", "t1")] "r" "cbad" [("r", "t2")] loadColsW "public"
    (by rfl) (by decide) (by decide) (by decide) (by rfl)

/-- C6: when rendering a table fails (template parse, template
execution, or source formatting), the renderer's own return buffer is
empty and the shared combined buffer PgCreateStruct returns holds
exactly the concatenated output of the tables successfully rendered
before the failure — the failing table contributes nothing. -/
theorem PgCreateStruct_no_partial_output (tmp : String)
    (db : Except String PgTypeMapConfig)
    (df : String → Except String PgTypeMapConfig) (pvn : String → String)
    (pe : Option String) (ex : Struct → Except String String)
    (fm : String → Except String String) (cfg : PgTypeMapConfig)
    (pre : List PgTable) (bad : PgTable) (rest : List PgTable)
    (st2 : Struct) (e : String)
    (hdec : decodeConfig tmp db df = Except.ok cfg)
    (hpre : ∀ t ∈ pre, (PgExecuteStructTmpl pe ex fm (structOf pvn t cfg)).2 = none)
    (hbad : (PgExecuteStructTmpl pe ex fm (structOf pvn bad cfg)).2 = some e)
    (hst2 : (PgExecuteStructTmpl pe ex fm st2).2.isSome = true) :
    (PgExecuteStructTmpl pe ex fm st2).1 = "" ∧
    PgCreateStruct (Except.ok (pre ++ bad :: rest)) tmp db df pvn pe ex fm =
      (concatStrs (pre.map fun t => (PgExecuteStructTmpl pe ex fm (structOf pvn t cfg)).1),
       some ("faield to execute template: " ++ e)) := by
  refine ⟨PgExecuteStructTmpl_err_src pe ex fm st2 hst2, ?_⟩
  unfold PgCreateStruct
  rw [hdec]
  dsimp only
  rw [createLoop_append_ok pvn pe ex fm cfg pre (bad :: rest) "" hpre]
  rw [createLoop_bad_head pvn pe ex fm cfg bad rest _ e hbad]
  simp

/-- Witness for C6: with one table rendered before the failing one, the
returned buffer is exactly that table's output and nothing of the
failing table. -/
theorem PgCreateStruct_no_partial_output_witness :
    (PgExecuteStructTmpl none exW fmOkW (structOf pvnIdW tblBadW cfgW)).1 = "" ∧
    PgCreateStruct (Except.ok ([tblOneW] ++ tblBadW :: [tblTwoW])) ""
      (Except.ok cfgW) dfW pvnIdW none exW fmOkW =
      (concatStrs ([tblOneW].map fun t =>
        (PgExecuteStructTmpl none exW fmOkW (structOf pvnIdW t cfgW)).1),
       some ("faield to execute template: " ++ "failed to execute template: boom")) :=
  PgCreateStruct_no_partial_output "" (Except.ok cfgW) dfW pvnIdW none exW
    fmOkW cfgW [tblOneW] tblBadW [tblTwoW] (structOf pvnIdW tblBadW cfgW)
    "failed to execute template: boom" (by rfl) (by decide) (by rfl) (by rfl)

/-- C7: when every table renders successfully, PgCreateStruct returns
no error and its combined output is the concatenation of each table's
rendered output in exactly the order of the loaded table list. -/
theorem PgCreateStruct_concat_in_order (tmp : String)
    (db : Except String PgTypeMapConfig)
    (df : String → Except String PgTypeMapConfig) (pvn : String → String)
    (pe : Option String) (ex : Struct → Except String String)
    (fm : String → Except String String) (cfg : PgTypeMapConfig)
    (tbls : List PgTable)
    (hdec : decodeConfig tmp db df = Except.ok cfg)
    (hall : ∀ t ∈ tbls, (PgExecuteStructTmpl pe ex fm (structOf pvn t cfg)).2 = none) :
    PgCreateStruct (Except.ok tbls) tmp db df pvn pe ex fm =
      (concatStrs (tbls.map fun t => (PgExecuteStructTmpl pe ex fm (structOf pvn t cfg)).1),
       none) := by
  unfold PgCreateStruct
  rw [hdec]
  dsimp only
  have happ := createLoop_append_ok pvn pe ex fm cfg tbls [] "" hall
  rw [List.append_nil] at happ
  rw [happ, createLoop]
  simp

/-- Witness for C7: two tables render in list order and their outputs
are concatenated in that order. -/
theorem PgCreateStruct_concat_in_order_witness :
    PgCreateStruct (Except.ok [tblOneW, tblTwoW]) "" (Except.ok cfgW) dfW
      pvnIdW none exW fmOkW =
      (concatStrs ([tblOneW, tblTwoW].map fun t =>
        (PgExecuteStructTmpl none exW fmOkW (structOf pvnIdW t cfgW)).1), none) :=
  PgCreateStruct_concat_in_order "" (Except.ok cfgW) dfW pvnIdW none exW fmOkW
    cfgW [tblOneW, tblTwoW] (by rfl) (by decide)
